import Mathlib

set_option maxHeartbeats 1000000

/-!
Shallow embedding of `celery_growthmonitor/models/job.py`.

The embedding covers: the path-resolution functions (`_user_path`, `root_job`,
`job_root`, `job_data`, `job_results`), the required-file promotion protocol
(`move_to_data`), the manager wiring
(`JobWithRequiredUserFilesManager.contribute_to_class`), `AJob.save` and
`AJob.slug_default`.

Modelling conventions:
- Python strings are Lean `String`s; `os.path.join` is `pathJoin` (POSIX).
- Python attribute values that may be `None`, a string or a callable are
  explicit inductive types; Python truthiness is spelled out per type.
- The file storage is an association list from paths to content tokens.
- Randomness (`random.randrange`) takes its draw as an explicit argument.
- Exceptions are an error value returned together with the state at the
  moment of the raise, since Python exceptions do not roll back mutations.
- `settings.APP_ROOT` and `settings.TTL` are not part of `src/`; they are
  passed as parameters (a base-directory string and a duration added to the
  creation timestamp), following the spec's description of the configuration.
-/

/-- Python slicing `s[:n]` on a string. -/
def strTake (s : String) (n : Nat) : String := ⟨s.data.take n⟩

/-- Character-wise test that `p` is a prefix of `s`. -/
def strStartsWith (s p : String) : Bool := p.data.isPrefixOf s.data

/-- Character-wise test that `p` is a suffix of `s`. -/
def strEndsWith (s p : String) : Bool := p.data.isSuffixOf s.data

/-- `os.path.join a b` for POSIX paths, as the source uses it. -/
def pathJoin (a b : String) : String :=
  if strStartsWith b "/" then b
  else if a = "" then b
  else if strEndsWith a "/" then a ++ b
  else a ++ "/" ++ b

/-- The characters after the last slash: the accumulator of characters seen
so far is reset whenever a slash is read. -/
def basenameList : List Char → List Char → List Char
  | [], acc => acc.reverse
  | c :: rest, acc =>
    if c = '/' then basenameList rest [] else basenameList rest (c :: acc)

/-- `os.path.basename`: the part of a path after the last slash. -/
def basename (s : String) : String := ⟨basenameList s.data []⟩

/-- `random.randrange lo hi`, with the randomness supplied as the draw `r`.
The result is `lo + r % (hi - lo)`, always inside `[lo, hi)` for `lo < hi`. -/
def randrange (lo hi r : Nat) : Nat := lo + r % (hi - lo)

/-- `TEMPORARY_JOB_FOLDER` from the source. -/
def TEMPORARY_JOB_FOLDER : String := "tmp"

/-- A Python value sitting in a `job_root` class attribute: `None`, a string
prefix, or a zero-argument callable (modelled by the string it returns). -/
inductive RootAttr where
  | pynone
  | pystr (s : String)
  | pycallable (ret : String)
deriving DecidableEq

/-- Python truthiness of a `job_root` attribute value. -/
def RootAttr.truthy : RootAttr → Bool
  | .pynone => false
  | .pystr s => s ≠ ""
  | .pycallable _ => true

/-- Whether the attribute is a callable (`callable(x)` in Python). -/
def RootAttr.isCallable : RootAttr → Bool
  | .pycallable _ => true
  | _ => false

/-- Bytecode identity token of `job_data.__code__.co_code` in the model. -/
def job_data_code : Nat := 0

/-- Bytecode identity token of `job_results.__code__.co_code` in the model. -/
def job_results_code : Nat := 1

/-- A Python value sitting in `upload_to_data` / `upload_to_results`:
`None`, a string prefix, or a one-argument callable.  A callable carries the
token of its `__code__.co_code` (the built-in `job_data` and `job_results`
have the two distinguished tokens above) together with its behaviour as a
function of the filename. -/
inductive UpAttr where
  | pynone
  | pystr (s : String)
  | pycallable (code : Nat) (f : String → String)

/-- Errors raised by the modelled code. -/
inductive PyErr where
  /-- The `assert hasattr(instance, '_tmp_id')` in `root_job` failing. -/
  | assertionError
  /-- The `AttributeError` raised by `move_to_data` when the sender class has
  no `required_user_files` attribute. -/
  | attributeError (sender : String)
  /-- The `FileNotFoundError` raised by `move_to_data`, naming the field. -/
  | fileNotFound (field : String)
deriving DecidableEq

instance decEqExceptPyErrString : DecidableEq (Except PyErr String) := fun a b =>
  match a, b with
  | .error e1, .error e2 =>
    if h : e1 = e2 then .isTrue (by rw [h])
    else .isFalse (fun hc => h (Except.error.inj hc))
  | .ok s1, .ok s2 =>
    if h : s1 = s2 then .isTrue (by rw [h])
    else .isFalse (fun hc => h (Except.ok.inj hc))
  | .error _, .ok _ => .isFalse (fun hc => Except.noConfusion hc)
  | .ok _, .error _ => .isFalse (fun hc => Except.noConfusion hc)

/-- Which upload path function a required `FileField` is configured with
(`file.field.upload_to` in the source): one of the module's path functions,
or a user-supplied callable modelled as a function of the filename. -/
inductive FieldUpload where
  | uroot
  | udata
  | uresults
  | uuser (f : String → String)

/-- The state of a job model class after Django class preparation: the class
attributes read by the modelled functions.  `required_user_files` and
`tmp_id_class` (`_tmp_id`) are `Option`s because the attributes are absent on
classes that do not use `JobWithRequiredUserFilesManager`; `hasManager`
records whether the manager connected `move_to_data` to `post_save`. -/
structure JobClass where
  name : String
  job_root : RootAttr
  upload_to_data : UpAttr
  upload_to_results : UpAttr
  required_user_files : Option (List String)
  tmp_id_class : Option Nat
  field_upload : String → FieldUpload
  hasManager : Bool

/-- An in-memory job instance.  `tmp_id_inst` is the instance-level `_tmp_id`
attribute (it shadows the class attribute once `move_to_data` writes `0`);
`tmp_files` is the instance-level `_tmp_files` pending list (`none` when the
attribute has never been set); `files` maps each file-field name to the
current `file.name` (the empty string models an empty `FieldFile`). -/
structure Job where
  id : Option Nat
  tmp_id_inst : Option Nat
  tmp_files : Option (List String)
  files : List (String × String)
  timestamp : Int
  closure : Option Int

/-- Python truthiness of `instance.id` / `getattr(instance, '_tmp_id', None)`:
`None` and `0` are falsy. -/
def pyTruthyNat : Option Nat → Bool
  | none => false
  | some n => n ≠ 0

/-- Python truthiness of `getattr(instance, '_tmp_files', None)`: `None` and
the empty list are falsy. -/
def pyTruthyList : Option (List String) → Bool
  | none => false
  | some l => l ≠ []

/-- `getattr(instance, '_tmp_id', None)`: the instance attribute shadows the
class attribute. -/
def effTmpId (cls : JobClass) (j : Job) : Option Nat :=
  match j.tmp_id_inst with
  | some v => some v
  | none => cls.tmp_id_class

/-- Reading a file field of the instance: the current `file.name`. -/
def lookupFile : List (String × String) → String → String
  | [], _ => ""
  | (g, v) :: r, f => if f = g then v else lookupFile r f

/-- `getattr(instance, field)` for a file field, as the name it holds. -/
def getFile (j : Job) (f : String) : String := lookupFile j.files f

/-- Pointwise update of the file-field list. -/
def setFileList : List (String × String) → String → String → List (String × String)
  | [], f, v => [(f, v)]
  | (g, w) :: r, f, v => if f = g then (f, v) :: r else (g, w) :: setFileList r f v

/-- `file.name = new_filename` on the instance. -/
def setFile (j : Job) (f v : String) : Job := { j with files := setFileList j.files f v }

/-- Python `str.lower()`, character-wise (job class names are ASCII). -/
def pyLower (s : String) : String := ⟨s.data.map Char.toLower⟩

/-- The default head `os.path.join(settings.APP_ROOT, cls.__name__.lower())`,
and the head chosen by `root_job` for a non-callable `job_root` attribute
(a falsy attribute falls back to the default, a truthy string is used as is). -/
def headFor (app : String) (cls : JobClass) : String :=
  match cls.job_root with
  | .pystr s => if s = "" then pathJoin app (pyLower cls.name) else s
  | _ => pathJoin app (pyLower cls.name)

/-- `root_job(instance)` from the source: a truthy callable `job_root` is
returned directly; otherwise the head is joined with either the temporary
tail `tmp/<_tmp_id>` or the permanent tail `str(id)`, following the source's
condition `not instance.id or (instance.id and getattr(instance, '_tmp_id',
None) and not getattr(instance, '_tmp_files', None))`.  The `assert
hasattr(instance, '_tmp_id')` is the `assertionError` branch. -/
def root_job (app : String) (cls : JobClass) (j : Job) : Except PyErr String :=
  match cls.job_root with
  | .pycallable ret => .ok ret
  | _ =>
    let head := headFor app cls
    if !(pyTruthyNat j.id)
        || (pyTruthyNat j.id && pyTruthyNat (effTmpId cls j) && !(pyTruthyList j.tmp_files)) then
      match effTmpId cls j with
      | none => .error .assertionError
      | some t => .ok (pathJoin head (pathJoin TEMPORARY_JOB_FOLDER (Nat.repr t)))
    else
      .ok (pathJoin head (Nat.repr (j.id.getD 0)))

/-- `job_root(instance, filename)` from the source. -/
def job_root (app : String) (cls : JobClass) (j : Job) (filename : String) :
    Except PyErr String :=
  (root_job app cls j).map (fun r => pathJoin r filename)

/-- `_user_path(attribute_or_prefix, filename)` from the source: `None` for a
falsy attribute; for a callable, the call result unless its `co_code` equals
that of `job_data` or `job_results` (the anti-recursion guard, in which case
`None`); for a string prefix, `os.path.join(prefix, filename)`. -/
def user_path (a : UpAttr) (filename : String) : Option String :=
  match a with
  | .pynone => none
  | .pystr s => if s = "" then none else some (pathJoin s filename)
  | .pycallable code f =>
    if code ≠ job_data_code && code ≠ job_results_code then some (f filename) else none

/-- Python `x or y` for an optional string `x`: `y` when `x` is `None` or
empty, else the string in `x`. -/
def pyOr (x : Option String) (y : String) : String :=
  match x with
  | none => y
  | some s => if s = "" then y else s

/-- `job_data(instance, filename)` from the source, for a job instance
(`isinstance(instance, ADataFile)` is false): the root joined with the user
data path or the default `data/<filename>`. -/
def job_data (app : String) (cls : JobClass) (j : Job) (filename : String) :
    Except PyErr String :=
  (root_job app cls j).map
    (fun head => pathJoin head (pyOr (user_path cls.upload_to_data filename)
      (pathJoin "data" filename)))

/-- `job_results(instance, filename)` from the source. -/
def job_results (app : String) (cls : JobClass) (j : Job) (filename : String) :
    Except PyErr String :=
  (root_job app cls j).map
    (fun head => pathJoin head (pyOr (user_path cls.upload_to_results filename)
      (pathJoin "results" filename)))

/-- `file.field.upload_to(instance, filename)` for a required field. -/
def uploadAt (app : String) (cls : JobClass) (j : Job) (fu : FieldUpload)
    (filename : String) : Except PyErr String :=
  match fu with
  | .uroot => job_root app cls j filename
  | .udata => job_data app cls j filename
  | .uresults => job_results app cls j filename
  | .uuser f => .ok (f filename)

/-- The file storage: an association list from paths to content tokens. -/
abbrev FS : Type := List (String × Nat)

/-- Content stored at a path, if any. -/
def lookupFS : FS → String → Option Nat
  | [], _ => none
  | (q, c) :: fs, p => if p = q then some c else lookupFS fs p

/-- `file.storage.save(path, content)`. -/
def fsSave (fs : FS) (p : String) (c : Nat) : FS := (p, c) :: fs

/-- `file.storage.delete(path)`: every entry at that path disappears. -/
def fsDelete : FS → String → FS
  | [], _ => []
  | (a, c) :: fs, p => if a = p then fsDelete fs p else (a, c) :: fsDelete fs p

/-- Whether a path lies at or below a directory. -/
def underTree (p root : String) : Bool := p = root || strStartsWith p (root ++ "/")

/-- `shutil.rmtree(root)`: every path at or below `root` disappears. -/
def rmtree : FS → String → FS
  | [], _ => []
  | (a, c) :: fs, root =>
    if underTree a root then rmtree fs root else (a, c) :: rmtree fs root

/-- One iteration of the `move_to_data` loop body for one field: check the
file reference, compute the new filename with the field's `upload_to`, save
the bytes under the new name, repoint the reference, delete the old bytes,
and drop the field from the instance's `_tmp_files` pending list.  Errors are
raised before any mutation of this iteration happens. -/
def promoteField (app : String) (cls : JobClass) (j : Job) (fs : FS)
    (field : String) : Except PyErr (Job × FS) :=
  let file := getFile j field
  if file = "" then .error (.fileNotFound field)
  else
    match uploadAt app cls j (cls.field_upload field) (basename file) with
    | .error e => .error e
    | .ok newName =>
      let content := (lookupFS fs file).getD 0
      let fs1 := fsSave fs newName content
      let j1 := setFile j field newName
      let fs2 := fsDelete fs1 file
      let j2 := { j1 with tmp_files := some (((j1.tmp_files).getD []).erase field) }
      .ok (j2, fs2)

/-- The `for field in instance.required_user_files:` loop of `move_to_data`.
On an exception the state reached so far is kept (no rollback). -/
def promoteLoop (app : String) (cls : JobClass) :
    List String → Job → FS → Option PyErr × Job × FS
  | [], j, fs => (none, j, fs)
  | f :: rest, j, fs =>
    match promoteField app cls j fs f with
    | .error e => (some e, j, fs)
    | .ok (j1, fs1) => promoteLoop app cls rest j1 fs1

/-- `move_to_data(sender, instance, created)` from the source: raise
`AttributeError` when the class lacks `required_user_files`; when `created`,
snapshot the pending list, run the loop, `shutil.rmtree(root_job(instance))`
(which at that point resolves to the temporary folder), and set the
instance-level `_tmp_id` to `0`. -/
def move_to_data (app : String) (cls : JobClass) (j : Job) (fs : FS)
    (created : Bool) : Option PyErr × Job × FS :=
  match cls.required_user_files with
  | none => (some (.attributeError cls.name), j, fs)
  | some req =>
    if created then
      let j0 := { j with tmp_files := some req }
      match promoteLoop app cls req j0 fs with
      | (some e, j1, fs1) => (some e, j1, fs1)
      | (none, j1, fs1) =>
        match root_job app cls j1 with
        | .error e => (some e, j1, fs1)
        | .ok rootPath => (none, { j1 with tmp_id_inst := some 0 }, rmtree fs1 rootPath)
    else (none, j, fs)

/-- The context a save runs in: configuration (`APP_ROOT`, `TTL`), the
creation instant the persistence layer stamps into `timestamp`
(`auto_now_add`), and the permanent id it assigns on first insert. -/
structure SaveCtx where
  app_root : String
  ttl : Int
  now : Int
  new_id : Nat

/-- The first `super().save()` on a fresh record: the persistence layer
assigns the permanent id and stamps the creation timestamp. -/
def dbInsert (ctx : SaveCtx) (j : Job) : Job :=
  { j with id := some ctx.new_id, timestamp := ctx.now }

/-- `AJob.save` from the source: `created = not self.id`; the first
`super().save()` (insert when created) fires `post_save`, which runs
`move_to_data` when the class uses the manager; when created, `closure` is
then set to `timestamp + TTL`, a second `super().save()` runs (its
`post_save` sees `created=False`), and the results directory
`job_results(self)` is computed for `os.makedirs` (directories themselves are
not part of the storage model).  An error anywhere aborts the rest and is
returned with the state at that point. -/
def save (ctx : SaveCtx) (cls : JobClass) (j : Job) (fs : FS) :
    Option PyErr × Job × FS :=
  let created := !(pyTruthyNat j.id)
  let j1 := if created then dbInsert ctx j else j
  let r1 := if cls.hasManager then move_to_data ctx.app_root cls j1 fs created
            else (none, j1, fs)
  match r1 with
  | (some e, j2, fs2) => (some e, j2, fs2)
  | (none, j2, fs2) =>
    if created then
      let j3 := { j2 with closure := some (j2.timestamp + ctx.ttl) }
      let r2 := if cls.hasManager then move_to_data ctx.app_root cls j3 fs2 false
                else (none, j3, fs2)
      match r2 with
      | (some e, j4, fs4) => (some e, j4, fs4)
      | (none, j4, fs4) =>
        match job_results ctx.app_root cls j4 "" with
        | .error e => (some e, j4, fs4)
        | .ok _ => (none, j4, fs4)
    else (none, j2, fs2)

/-- A job model class as declared by the user, before
`JobWithRequiredUserFilesManager.contribute_to_class` runs: `upload_to_data`
and `required_user_files` may be absent (`getattr(model, ..., default)`). -/
structure ModelDecl where
  name : String
  job_root : RootAttr
  upload_to_data : Option UpAttr
  upload_to_results : UpAttr
  declared_required : Option (List String)
  field_upload : String → FieldUpload

/-- `JobWithRequiredUserFilesManager.contribute_to_class` from the source:
runs once per model class, sets `upload_to_data` and `required_user_files`
to their declared values or defaults, draws `_tmp_id = randrange(10**6,
10**7)` once and stores it as a class attribute, and connects `move_to_data`
to `post_save` for this model. -/
def contribute_to_class (r : Nat) (m : ModelDecl) : JobClass :=
  { name := m.name
    job_root := m.job_root
    upload_to_data := (m.upload_to_data).getD .pynone
    upload_to_results := m.upload_to_results
    required_user_files := some ((m.declared_required).getD [])
    tmp_id_class := some (randrange (10 ^ 6) (10 ^ 7) r)
    field_upload := m.field_upload
    hasManager := true }

/-- Constructing a job instance (`Job()` in Python): no field of the model is
touched by the constructor beyond defaults; in particular no instance-level
`_tmp_id` or `_tmp_files` attribute exists and no randomness is consumed. -/
def mkJob (_cls : JobClass) : Job :=
  { id := none
    tmp_id_inst := none
    tmp_files := none
    files := []
    timestamp := 0
    closure := none }

/-- A Python `datetime`, carrying the invariants the `datetime` constructor
enforces on its fields. -/
structure PyDateTime where
  year : Nat
  month : Nat
  day : Nat
  hour : Nat
  minute : Nat
  month_le : month ≤ 12
  day_le : day ≤ 31
  hour_lt : hour < 24
  minute_lt : minute < 60

/-- A two-digit zero-padded decimal rendering, as `strftime` produces for
each of `%y %m %d %H %M` on the (always two-digit) `datetime` fields. -/
def pad2 (n : Nat) : String := ⟨[Nat.digitChar (n / 10 % 10), Nat.digitChar (n % 10)]⟩

/-- `timestamp.strftime("%y%m%d%H%M")` from the source. -/
def strftime_yymmddhhmm (t : PyDateTime) : String :=
  pad2 (t.year % 100) ++ pad2 t.month ++ pad2 t.day ++ pad2 t.hour ++ pad2 t.minute

/-- `AJob.SLUG_MAX_LENGTH`. -/
def SLUG_MAX_LENGTH : Nat := 32

/-- `AJob.SLUG_RND_LENGTH`. -/
def SLUG_RND_LENGTH : Nat := 6

/-- `AJob.slug_default` from the source, with the class name, the identifier
field, the creation timestamp and the random draw as parameters.  The
`self.__class__.__name__[0]` for a (necessarily nonempty) class name is the
one-character prefix. -/
def slug_default (className identifier : String) (ts : PyDateTime) (r : Nat) : String :=
  let slug := if identifier ≠ "" then
      strTake identifier (min identifier.length SLUG_RND_LENGTH)
    else strTake className 1
  let slug := slug ++ strftime_yymmddhhmm ts
  if slug.length > SLUG_MAX_LENGTH then
    strTake slug (SLUG_MAX_LENGTH - SLUG_RND_LENGTH) ++
      Nat.repr (randrange (10 ^ (SLUG_RND_LENGTH - 1)) (10 ^ SLUG_RND_LENGTH) r)
  else slug

/-- The permanent root `head/<id>` that `root_job` yields once the temporary
branch is not taken (for a callable `job_root`, the callable's result). -/
def permRoot (app : String) (cls : JobClass) (n : Nat) : String :=
  match cls.job_root with
  | .pycallable ret => ret
  | _ => pathJoin (headFor app cls) (Nat.repr n)

/-- The value `file.field.upload_to(instance, fn)` takes while the instance
resolves to its permanent root (id set, pending list non-empty). -/
def permName (app : String) (cls : JobClass) (n : Nat) (field fn : String) : String :=
  match cls.field_upload field with
  | .uroot => pathJoin (permRoot app cls n) fn
  | .udata => pathJoin (permRoot app cls n)
      (pyOr (user_path cls.upload_to_data fn) (pathJoin "data" fn))
  | .uresults => pathJoin (permRoot app cls n)
      (pyOr (user_path cls.upload_to_results fn) (pathJoin "results" fn))
  | .uuser f => f fn

/-- The new filename `move_to_data` computes for a field whose current file
name is `oldName`: the field's upload function at `basename oldName`. -/
def newNameOf (app : String) (cls : JobClass) (n : Nat) (field oldName : String) : String :=
  permName app cls n field (basename oldName)

/-- Example model class declaration used by the C4 counterexample. -/
def c4decl : ModelDecl :=
  { name := "MyJob", job_root := .pynone, upload_to_data := none,
    upload_to_results := .pynone, declared_required := some ["input"],
    field_upload := fun _ => .udata }

/-- The C4 class: the manager attached with draw 42. -/
def c4cls : JobClass := contribute_to_class 42 c4decl

/-- Concrete class for the C1 counterexample: a managed class with a plain
default root and class-level temporary id 5000000. -/
def c1cls : JobClass :=
  { name := "MyJob", job_root := .pynone, upload_to_data := .pynone,
    upload_to_results := .pynone, required_user_files := some ["input"],
    tmp_id_class := some 5000000, field_upload := fun _ => .udata,
    hasManager := true }

/-- C1 counterexample instance: id assigned, pending list still non-empty. -/
def c1jobPending : Job :=
  { id := some 1, tmp_id_inst := none, tmp_files := some ["input"],
    files := [], timestamp := 0, closure := none }

/-- C1 counterexample instance: id assigned, pending list empty. -/
def c1jobDone : Job :=
  { id := some 1, tmp_id_inst := none, tmp_files := some [],
    files := [], timestamp := 0, closure := none }

/-- Class used by the C1 amended witness. -/
def c1wcls : JobClass :=
  { name := "WJob", job_root := .pystr "base", upload_to_data := .pynone,
    upload_to_results := .pynone, required_user_files := some [],
    tmp_id_class := some 777, field_upload := fun _ => .udata,
    hasManager := true }

/-- Job used by the C1 amended witness: no id yet. -/
def c1wjob : Job :=
  { id := none, tmp_id_inst := none, tmp_files := none,
    files := [], timestamp := 0, closure := none }

/-- Class with a callable `job_root`, for the C7 counterexample. -/
def c7cls : JobClass :=
  { name := "CJob", job_root := .pycallable "custom", upload_to_data := .pynone,
    upload_to_results := .pynone, required_user_files := some ["input"],
    tmp_id_class := some 3000000, field_upload := fun _ => .udata,
    hasManager := true }

/-- C7 counterexample instance: id unset. -/
def c7job : Job :=
  { id := none, tmp_id_inst := none, tmp_files := none,
    files := [], timestamp := 0, closure := none }

/-- Class used by the C7 amended witness. -/
def c7wcls : JobClass :=
  { name := "DJob", job_root := .pynone, upload_to_data := .pynone,
    upload_to_results := .pynone, required_user_files := some [],
    tmp_id_class := some 4000004, field_upload := fun _ => .udata,
    hasManager := true }

/-- Class with a callable `job_root`, for the C8 counterexample. -/
def c8cls : JobClass :=
  { name := "EJob", job_root := .pycallable "elsewhere", upload_to_data := .pynone,
    upload_to_results := .pynone, required_user_files := some ["input"],
    tmp_id_class := some 6000000, field_upload := fun _ => .udata,
    hasManager := true }

/-- C8 counterexample instance: id set, promotion completed (`_tmp_id = 0`). -/
def c8job : Job :=
  { id := some 7, tmp_id_inst := some 0, tmp_files := some [],
    files := [], timestamp := 0, closure := none }

/-- Class used by the C8 amended witness. -/
def c8wcls : JobClass :=
  { name := "FJob", job_root := .pystr "fbase", upload_to_data := .pynone,
    upload_to_results := .pynone, required_user_files := some ["input"],
    tmp_id_class := some 8000000, field_upload := fun _ => .udata,
    hasManager := true }

/-- C8 amended witness instance. -/
def c8wjob : Job :=
  { id := some 12, tmp_id_inst := some 0, tmp_files := some [],
    files := [], timestamp := 0, closure := none }

/-- Class for the C9 witness: `upload_to_data` aliases the built-in
`job_data` and `upload_to_results` aliases the built-in `job_results`
(each override carries the corresponding `co_code`). -/
def c9cls : JobClass :=
  { name := "GJob", job_root := .pynone,
    upload_to_data := .pycallable job_data_code (fun s => s),
    upload_to_results := .pycallable job_results_code (fun s => s),
    required_user_files := some [], tmp_id_class := some 9000009,
    field_upload := fun _ => .udata, hasManager := true }

/-- Job for the C9 witness. -/
def c9job : Job :=
  { id := some 3, tmp_id_inst := some 0, tmp_files := some [],
    files := [], timestamp := 0, closure := none }

/-- Concrete timestamp 2023-05-01 10:30 used by the slug witnesses. -/
def exTs : PyDateTime :=
  { year := 2023, month := 5, day := 1, hour := 10, minute := 30,
    month_le := by norm_num, day_le := by norm_num,
    hour_lt := by norm_num, minute_lt := by norm_num }

/-- Unmanaged class used by the C6 witness. -/
def c6cls : JobClass :=
  { name := "HJob", job_root := .pynone, upload_to_data := .pynone,
    upload_to_results := .pynone, required_user_files := none,
    tmp_id_class := none, field_upload := fun _ => .udata,
    hasManager := false }

/-- Fresh job for the C6 witness. -/
def c6job : Job :=
  { id := none, tmp_id_inst := none, tmp_files := none,
    files := [], timestamp := 0, closure := none }

/-- Save context for the C6 witness. -/
def c6ctx : SaveCtx := { app_root := "app", ttl := 10, now := 100, new_id := 3 }

/-- Managed class for the C3 witness: three required fields. -/
def c3cls : JobClass :=
  { name := "PJob", job_root := .pynone, upload_to_data := .pynone,
    upload_to_results := .pynone,
    required_user_files := some ["alpha", "beta", "gamma"],
    tmp_id_class := some 1111111, field_upload := fun _ => .udata,
    hasManager := true }

/-- C3 witness instance: `beta` has no file. -/
def c3job : Job :=
  { id := none, tmp_id_inst := none, tmp_files := none,
    files := [("alpha", "app/pjob/tmp/1111111/data/a.txt"), ("beta", ""),
              ("gamma", "app/pjob/tmp/1111111/data/c.txt")],
    timestamp := 0, closure := none }

/-- C3 witness storage. -/
def c3fs : FS := [("app/pjob/tmp/1111111/data/a.txt", 5)]

/-- C3 witness save context. -/
def c3ctx : SaveCtx := { app_root := "app", ttl := 7, now := 50, new_id := 9 }

/-- Managed class for the C2 witness: two required fields. -/
def c2cls : JobClass :=
  { name := "QJob", job_root := .pynone, upload_to_data := .pynone,
    upload_to_results := .pynone,
    required_user_files := some ["one", "two"],
    tmp_id_class := some 2222222, field_upload := fun _ => .udata,
    hasManager := true }

/-- C2 witness instance: both required files uploaded under the tmp root. -/
def c2job : Job :=
  { id := none, tmp_id_inst := none, tmp_files := none,
    files := [("one", "app/qjob/tmp/2222222/data/f1.txt"),
              ("two", "app/qjob/tmp/2222222/data/f2.txt")],
    timestamp := 0, closure := none }

/-- C2 witness storage: the two uploaded files. -/
def c2fs : FS := [("app/qjob/tmp/2222222/data/f1.txt", 1),
                  ("app/qjob/tmp/2222222/data/f2.txt", 2)]

/-- C2 witness save context. -/
def c2ctx : SaveCtx := { app_root := "app", ttl := 3, now := 20, new_id := 4 }

/-! Helper lemmas about the string and storage primitives. -/

theorem strEndsWith_append (a b : String) : strEndsWith (a ++ b) b = true := by
  simp only [strEndsWith, String.data_append, List.isSuffixOf_iff_suffix]
  exact List.suffix_append a.data b.data

theorem strEndsWith_refl (a : String) : strEndsWith a a = true := by
  simp only [strEndsWith, List.isSuffixOf_iff_suffix]
  exact List.suffix_refl a.data

theorem pathJoin_endsWith (a b : String) (h : strStartsWith b "/" = false) :
    strEndsWith (pathJoin a b) b = true := by
  unfold pathJoin
  rw [h]
  simp only [Bool.false_eq_true, if_false]
  split
  · exact strEndsWith_refl b
  · split
    · exact strEndsWith_append a b
    · exact strEndsWith_append (a ++ "/") b

theorem digitChar_lt_ne_slash (d : Nat) (hd : d < 16) : Nat.digitChar d ≠ '/' := by
  interval_cases d <;> decide

theorem toDigitsCore_mem (b : Nat) (hb : 0 < b) :
    ∀ (fuel n : Nat) (ds : List Char) (c : Char),
      c ∈ Nat.toDigitsCore b fuel n ds → c ∈ ds ∨ ∃ d, d < b ∧ c = Nat.digitChar d := by
  intro fuel
  induction fuel with
  | zero => intro n ds c hc; exact Or.inl hc
  | succ fuel ih =>
    intro n ds c hc
    simp only [Nat.toDigitsCore] at hc
    split at hc
    · rcases List.mem_cons.mp hc with h | h
      · exact Or.inr ⟨n % b, Nat.mod_lt n hb, h⟩
      · exact Or.inl h
    · rcases ih (n / b) (Nat.digitChar (n % b) :: ds) c hc with h | h
      · rcases List.mem_cons.mp h with h1 | h1
        · exact Or.inr ⟨n % b, Nat.mod_lt n hb, h1⟩
        · exact Or.inl h1
      · exact Or.inr h

theorem repr_no_slash (n : Nat) : '/' ∉ (Nat.repr n).data := by
  intro hmem
  have hm : '/' ∈ ([] : List Char) ∨ ∃ d, d < 10 ∧ ('/' : Char) = Nat.digitChar d := by
    apply toDigitsCore_mem 10 (by norm_num) (n + 1) n [] '/'
    simpa [Nat.repr, Nat.toDigits, List.asString] using hmem
  rcases hm with h | ⟨d, hd10, hd⟩
  · simp at h
  · exact digitChar_lt_ne_slash d (by omega) hd.symm

theorem strStartsWith_repr_slash (n : Nat) : strStartsWith (Nat.repr n) "/" = false := by
  cases hb : strStartsWith (Nat.repr n) "/" with
  | false => rfl
  | true =>
    exfalso
    have hsub : ("/" : String).data ⊆ (Nat.repr n).data := by
      have := List.isPrefixOf_iff_prefix.mp hb
      exact this.subset
    exact repr_no_slash n (hsub (by decide))

theorem lookupFile_set (l : List (String × String)) (f v g : String) :
    lookupFile (setFileList l f v) g = if g = f then v else lookupFile l g := by
  induction l with
  | nil => simp [setFileList, lookupFile]
  | cons hd tl ih =>
    obtain ⟨a, w⟩ := hd
    by_cases hfa : f = a
    · subst hfa
      simp only [setFileList, if_pos rfl, lookupFile]
      by_cases hgf : g = f <;> simp [hgf]
    · simp only [setFileList, if_neg hfa, lookupFile, ih]
      by_cases hga : g = a
      · subst hga
        have hgf : ¬g = f := fun h => hfa h.symm
        simp [hgf]
      · simp [hga]

theorem getFile_setFile (j : Job) (f v g : String) :
    getFile (setFile j f v) g = if g = f then v else getFile j g := by
  simp [getFile, setFile, lookupFile_set]

theorem lookupFS_fsSave (fs : FS) (p : String) (c : Nat) (q : String) :
    lookupFS (fsSave fs p c) q = if q = p then some c else lookupFS fs q := by
  simp [fsSave, lookupFS]

theorem lookupFS_fsDelete (fs : FS) (p q : String) :
    lookupFS (fsDelete fs p) q = if q = p then none else lookupFS fs q := by
  induction fs with
  | nil => simp [fsDelete, lookupFS]
  | cons hd tl ih =>
    obtain ⟨a, c⟩ := hd
    by_cases hap : a = p
    · subst hap
      rw [show fsDelete ((a, c) :: tl) a = fsDelete tl a by simp [fsDelete]]
      rw [ih]
      by_cases hqa : q = a
      · simp [hqa]
      · simp [hqa, lookupFS]
    · rw [show fsDelete ((a, c) :: tl) p = (a, c) :: fsDelete tl p by simp [fsDelete, hap]]
      by_cases hqa : q = a
      · subst hqa
        have hqp : ¬q = p := fun h => hap h
        simp [lookupFS, hqp]
      · simp [lookupFS, hqa, ih]

theorem lookupFS_rmtree (fs : FS) (root q : String) :
    lookupFS (rmtree fs root) q =
      if underTree q root then none else lookupFS fs q := by
  induction fs with
  | nil => simp [rmtree, lookupFS]
  | cons hd tl ih =>
    obtain ⟨a, c⟩ := hd
    by_cases hu : underTree a root
    · rw [show rmtree ((a, c) :: tl) root = rmtree tl root by simp [rmtree, hu]]
      rw [ih]
      by_cases hqa : q = a
      · subst hqa; simp [hu, lookupFS]
      · simp [lookupFS, hqa]
    · rw [show rmtree ((a, c) :: tl) root = (a, c) :: rmtree tl root by simp [rmtree, hu]]
      by_cases hqa : q = a
      · subst hqa
        simp [lookupFS, hu]
      · simp [lookupFS, hqa, ih]

theorem mem_rmtree (fs : FS) (root : String) (e : String × Nat)
    (he : e ∈ rmtree fs root) : underTree e.1 root = false := by
  induction fs with
  | nil => simp [rmtree] at he
  | cons hd tl ih =>
    obtain ⟨a, c⟩ := hd
    by_cases hu : underTree a root
    · rw [show rmtree ((a, c) :: tl) root = rmtree tl root by simp [rmtree, hu]] at he
      exact ih he
    · rw [show rmtree ((a, c) :: tl) root = (a, c) :: rmtree tl root
        by simp [rmtree, hu]] at he
      rcases List.mem_cons.mp he with h | h
      · subst h
        simpa using hu
      · exact ih h

theorem pathJoin_tmp (t : Nat) :
    pathJoin TEMPORARY_JOB_FOLDER (Nat.repr t) = "tmp" ++ "/" ++ Nat.repr t := by
  unfold pathJoin TEMPORARY_JOB_FOLDER
  rw [strStartsWith_repr_slash, if_neg (by decide), if_neg (by decide), if_neg (by decide)]

theorem strStartsWith_tmpTail (t : Nat) :
    strStartsWith (pathJoin TEMPORARY_JOB_FOLDER (Nat.repr t)) "/" = false := by
  rw [pathJoin_tmp]
  have hdata : ("tmp" ++ "/" ++ Nat.repr t).data =
      't' :: 'm' :: 'p' :: '/' :: (Nat.repr t).data := by
    simp only [String.data_append]
    rfl
  simp [strStartsWith, hdata, List.isPrefixOf]

theorem root_job_noncallable (app : String) (cls : JobClass) (j : Job)
    (hnc : cls.job_root.isCallable = false) :
    root_job app cls j =
      if !(pyTruthyNat j.id)
          || (pyTruthyNat j.id && pyTruthyNat (effTmpId cls j)
              && !(pyTruthyList j.tmp_files)) then
        match effTmpId cls j with
        | none => .error .assertionError
        | some t =>
          .ok (pathJoin (headFor app cls) (pathJoin TEMPORARY_JOB_FOLDER (Nat.repr t)))
      else .ok (pathJoin (headFor app cls) (Nat.repr (j.id.getD 0))) := by
  unfold root_job
  cases hr : cls.job_root with
  | pycallable ret => rw [hr] at hnc; simp [RootAttr.isCallable] at hnc
  | pynone => rfl
  | pystr s => rfl

theorem root_job_perm (app : String) (cls : JobClass) (j : Job) (n : Nat)
    (hid : j.id = some n) (hn : n ≠ 0) (hpend : pyTruthyList j.tmp_files = true) :
    root_job app cls j = .ok (permRoot app cls n) := by
  unfold root_job permRoot
  cases hr : cls.job_root with
  | pycallable ret => rfl
  | pynone => simp [hid, hn, pyTruthyNat, hpend]
  | pystr s => simp [hid, hn, pyTruthyNat, hpend]

theorem uploadAt_perm (app : String) (cls : JobClass) (j : Job) (n : Nat)
    (field fn : String)
    (hid : j.id = some n) (hn : n ≠ 0) (hpend : pyTruthyList j.tmp_files = true) :
    uploadAt app cls j (cls.field_upload field) fn = .ok (permName app cls n field fn) := by
  have hroot := root_job_perm app cls j n hid hn hpend
  unfold uploadAt permName
  cases cls.field_upload field with
  | uroot => simp [job_root, hroot, Except.map]
  | udata => simp [job_data, hroot, Except.map]
  | uresults => simp [job_results, hroot, Except.map]
  | uuser f => rfl

theorem strTake_min (s : String) (n : Nat) :
    strTake s (min s.length n) = strTake s n := by
  unfold strTake
  congr 1
  rw [List.take_eq_take]
  have h : s.length = s.data.length := rfl
  omega

theorem strTake_length (s : String) (n : Nat) :
    (strTake s n).length = min n s.length := by
  have h : (strTake s n).length = (s.data.take n).length := rfl
  rw [h, List.length_take]
  rfl

theorem pad2_length (n : Nat) : (pad2 n).length = 2 := rfl

theorem strftime_length (ts : PyDateTime) : (strftime_yymmddhhmm ts).length = 10 := by
  simp [strftime_yymmddhhmm, String.length_append, pad2_length]

/-- C1 counterexample.  The claim says the path uses `tmp/<temporary_id>` as
its tail iff the id is unset or the pending list is still non-empty.  On the
code: with id assigned and the pending list non-empty, `root_job` already
resolves to the permanent tail `<id>` (first conjunct block), and with id
assigned and the pending list empty but `_tmp_id` still nonzero, `root_job`
resolves to the temporary tail (second block) — both directions of the
claimed biconditional fail. -/
theorem c1_counterexample :
    (pyTruthyNat c1jobPending.id = true ∧ c1jobPending.tmp_files = some ["input"] ∧
      root_job "app" c1cls c1jobPending = .ok "app/myjob/1" ∧
      strEndsWith "app/myjob/1" (pathJoin TEMPORARY_JOB_FOLDER (Nat.repr 5000000)) = false) ∧
    (pyTruthyNat c1jobDone.id = true ∧ c1jobDone.tmp_files = some [] ∧
      root_job "app" c1cls c1jobDone = .ok "app/myjob/tmp/5000000") := by
  exact ⟨⟨rfl, rfl, by decide, by decide⟩, rfl, rfl, by decide⟩

/-- C1 amended: for a class whose `job_root` attribute is not a callable (a
callable is returned verbatim, with no tail at all) and an instance whose
effective `_tmp_id` is `t`, the tail of `root_job` is `tmp/<t>` exactly when
the id is falsy, or the id is truthy, `t` is nonzero and the instance's
pending `_tmp_files` list is empty or absent; in every other case the tail is
the decimal id.  Once promotion completes it writes `_tmp_id = 0`, so paths
then resolve under the id. -/
theorem c1_amended_theorem (app : String) (cls : JobClass) (j : Job) (t : Nat)
    (hnc : cls.job_root.isCallable = false)
    (ht : effTmpId cls j = some t) :
    root_job app cls j = .ok (pathJoin (headFor app cls)
      (if !(pyTruthyNat j.id)
          || (pyTruthyNat j.id && pyTruthyNat (some t) && !(pyTruthyList j.tmp_files))
       then pathJoin TEMPORARY_JOB_FOLDER (Nat.repr t)
       else Nat.repr (j.id.getD 0))) := by
  rw [root_job_noncallable app cls j hnc, ht]
  rw [apply_ite (fun s => (Except.ok (pathJoin (headFor app cls) s) : Except PyErr String))]

/-- Witness for c1_amended_theorem at a concrete class with a string root
override and a fresh instance. -/
theorem c1_amended_witness :
    root_job "app" c1wcls c1wjob = .ok (pathJoin (headFor "app" c1wcls)
      (if !(pyTruthyNat c1wjob.id)
          || (pyTruthyNat c1wjob.id && pyTruthyNat (some 777) && !(pyTruthyList c1wjob.tmp_files))
       then pathJoin TEMPORARY_JOB_FOLDER (Nat.repr 777)
       else Nat.repr (c1wjob.id.getD 0))) :=
  c1_amended_theorem "app" c1wcls c1wjob 777 rfl rfl

/-- C4 counterexample.  The claim says every instance is assigned its own
freshly drawn `temporary_id` at construction.  On the code the draw happens
once, in `contribute_to_class`, and lands in a class attribute: the
constructor stores nothing on the instance, whose effective `_tmp_id` is the
single class value — here `1000042`, the draw `42` made when the manager was
attached — shared by all instances of the type. -/
theorem c4_counterexample :
    (mkJob c4cls).tmp_id_inst = none ∧
    c4cls.tmp_id_class = some 1000042 ∧
    effTmpId c4cls (mkJob c4cls) = some 1000042 := by
  exact ⟨rfl, by decide, by decide⟩

/-- C4 amended: the temporary id is drawn once per model class when the
manager is attached, by `randrange(10**6, 10**7)`, so it lies in
`[10^6, 10^7)`; a freshly constructed instance has no instance-level
`_tmp_id` of its own and resolves to the class value, so instances of the
same type share one temporary id. -/
theorem c4_amended_theorem (r : Nat) (m : ModelDecl) :
    (contribute_to_class r m).tmp_id_class = some (randrange (10 ^ 6) (10 ^ 7) r) ∧
    1000000 ≤ randrange (10 ^ 6) (10 ^ 7) r ∧
    randrange (10 ^ 6) (10 ^ 7) r < 10000000 ∧
    (mkJob (contribute_to_class r m)).tmp_id_inst = none ∧
    effTmpId (contribute_to_class r m) (mkJob (contribute_to_class r m)) =
      some (randrange (10 ^ 6) (10 ^ 7) r) := by
  refine ⟨rfl, ?_, ?_, rfl, rfl⟩
  · exact Nat.le_add_right _ _
  · have hlt : r % (10 ^ 7 - 10 ^ 6) < 10 ^ 7 - 10 ^ 6 :=
      Nat.mod_lt r (by norm_num)
    unfold randrange
    have h1 : (10 : Nat) ^ 7 - 10 ^ 6 = 9000000 := by norm_num
    have h2 : (10 : Nat) ^ 6 = 1000000 := by norm_num
    omega

/-- C5: for a job with a non-empty identifier the default slug is the first
six characters of the identifier followed by the creation timestamp rendered
as YYMMDDHHmm; and whenever that string exceeded 32 characters it would be
truncated to 32 - 6 characters with a six-digit random suffix appended (the
length bound at most 16 makes that branch vacuous). -/
theorem c5_theorem (className identifier : String) (ts : PyDateTime) (r : Nat)
    (hid : identifier ≠ "") :
    slug_default className identifier ts r =
      strTake identifier 6 ++ strftime_yymmddhhmm ts ∧
    ((strTake identifier 6 ++ strftime_yymmddhhmm ts).length > 32 →
      slug_default className identifier ts r =
        strTake (strTake identifier 6 ++ strftime_yymmddhhmm ts) 26 ++
          Nat.repr (randrange 100000 1000000 r)) := by
  have hlen : (strTake identifier 6 ++ strftime_yymmddhhmm ts).length ≤ 16 := by
    rw [String.length_append, strTake_length, strftime_length]
    omega
  have hbase : slug_default className identifier ts r =
      strTake identifier 6 ++ strftime_yymmddhhmm ts := by
    simp only [slug_default, SLUG_RND_LENGTH, SLUG_MAX_LENGTH]
    rw [if_pos hid, strTake_min]
    rw [if_neg (by omega)]
  exact ⟨hbase, fun hgt => absurd hgt (by omega)⟩

/-- Witness for c5_theorem at identifier abcdef123 and 2023-05-01 10:30. -/
theorem c5_witness :
    slug_default "MyJob" "abcdef123" exTs 0 =
      strTake "abcdef123" 6 ++ strftime_yymmddhhmm exTs ∧
    ((strTake "abcdef123" 6 ++ strftime_yymmddhhmm exTs).length > 32 →
      slug_default "MyJob" "abcdef123" exTs 0 =
        strTake (strTake "abcdef123" 6 ++ strftime_yymmddhhmm exTs) 26 ++
          Nat.repr (randrange 100000 1000000 0)) :=
  c5_theorem "MyJob" "abcdef123" exTs 0 (by decide)

/-- C10: the default slug always has length at most 16 (at most six
identifier characters, or one class-name character, plus the ten-character
timestamp), so the branch that truncates and appends a random suffix is
unreachable: the result does not depend on the random draw at all. -/
theorem c10_theorem (className identifier : String) (ts : PyDateTime) (r r2 : Nat)
    (hc : className ≠ "") :
    (slug_default className identifier ts r).length ≤ 16 ∧
    slug_default className identifier ts r = slug_default className identifier ts r2 := by
  by_cases hid : identifier ≠ ""
  · have h1 : (strTake identifier (min identifier.length 6)).length ≤ 6 := by
      rw [strTake_length]; omega
    have hlen : (strTake identifier (min identifier.length 6) ++
        strftime_yymmddhhmm ts).length ≤ 16 := by
      rw [String.length_append, strftime_length]; omega
    constructor
    · simp only [slug_default, SLUG_RND_LENGTH, SLUG_MAX_LENGTH]
      rw [if_pos hid, if_neg (by omega)]
      exact hlen
    · simp only [slug_default, SLUG_RND_LENGTH, SLUG_MAX_LENGTH]
      rw [if_pos hid, if_neg (by omega), if_neg (by omega)]
  · have h1 : (strTake className 1).length ≤ 1 := by
      rw [strTake_length]; omega
    have hlen : (strTake className 1 ++ strftime_yymmddhhmm ts).length ≤ 16 := by
      rw [String.length_append, strftime_length]; omega
    constructor
    · simp only [slug_default, SLUG_RND_LENGTH, SLUG_MAX_LENGTH]
      rw [if_neg hid, if_neg (by omega)]
      exact hlen
    · simp only [slug_default, SLUG_RND_LENGTH, SLUG_MAX_LENGTH]
      rw [if_neg hid, if_neg (by omega), if_neg (by omega)]

/-- Witness for c10_theorem at a concrete class name, identifier and two
distinct draws. -/
theorem c10_witness :
    (slug_default "MyJob" "abcdefgh" exTs 5).length ≤ 16 ∧
    slug_default "MyJob" "abcdefgh" exTs 5 = slug_default "MyJob" "abcdefgh" exTs 6 :=
  c10_theorem "MyJob" "abcdefgh" exTs 5 6 (by decide)

/-- C7 counterexample.  The claim says every job with unset id has a path
ending in `tmp/<temporary_id>`.  With a callable `job_root` override the
source returns the callable's result verbatim: here the path is `custom`,
which does not end with `tmp/3000000`. -/
theorem c7_counterexample :
    c7job.id = none ∧
    root_job "app" c7cls c7job = .ok "custom" ∧
    strEndsWith "custom" (pathJoin TEMPORARY_JOB_FOLDER (Nat.repr 3000000)) = false := by
  exact ⟨rfl, rfl, by decide⟩

/-- C7 amended: for jobs whose class `job_root` attribute is not a callable,
with id unset and an effective temporary id `t` present, `root_job` returns
`head/tmp/<t>`, a path that ends with the tail `tmp/<t>`. -/
theorem c7_amended_theorem (app : String) (cls : JobClass) (j : Job) (t : Nat)
    (hnc : cls.job_root.isCallable = false) (hid : j.id = none)
    (ht : effTmpId cls j = some t) :
    root_job app cls j =
      .ok (pathJoin (headFor app cls) (pathJoin TEMPORARY_JOB_FOLDER (Nat.repr t))) ∧
    strEndsWith (pathJoin (headFor app cls) (pathJoin TEMPORARY_JOB_FOLDER (Nat.repr t)))
      (pathJoin TEMPORARY_JOB_FOLDER (Nat.repr t)) = true := by
  constructor
  · rw [root_job_noncallable app cls j hnc, ht]
    simp [hid, pyTruthyNat]
  · exact pathJoin_endsWith _ _ (strStartsWith_tmpTail t)

/-- Witness for c7_amended_theorem at a default-root class. -/
theorem c7_amended_witness :
    root_job "app" c7wcls c7job =
      .ok (pathJoin (headFor "app" c7wcls)
        (pathJoin TEMPORARY_JOB_FOLDER (Nat.repr 4000004))) ∧
    strEndsWith (pathJoin (headFor "app" c7wcls)
        (pathJoin TEMPORARY_JOB_FOLDER (Nat.repr 4000004)))
      (pathJoin TEMPORARY_JOB_FOLDER (Nat.repr 4000004)) = true :=
  c7_amended_theorem "app" c7wcls c7job 4000004 rfl rfl rfl

/-- C8 counterexample.  The claim says every job with id set and promotion
completed has a path whose tail is exactly the decimal id.  With a callable
`job_root` override the source returns the callable's result verbatim: here
the path is `elsewhere`, whose tail is not the id `7`. -/
theorem c8_counterexample :
    pyTruthyNat c8job.id = true ∧ effTmpId c8cls c8job = some 0 ∧
    root_job "app" c8cls c8job = .ok "elsewhere" ∧
    strEndsWith "elsewhere" ("/" ++ Nat.repr 7) = false ∧
    "elsewhere" ≠ Nat.repr 7 := by
  exact ⟨rfl, rfl, rfl, by decide, by decide⟩

/-- C8 amended: for jobs whose class `job_root` attribute is not a callable,
with a nonzero id and the temporary identity exhausted (`_tmp_id = 0`, which
promotion writes on completion), `root_job` returns `head/<id>`: the path
ends with the decimal id and is never a `tmp/...` path. -/
theorem c8_amended_theorem (app : String) (cls : JobClass) (j : Job) (m : Nat)
    (hnc : cls.job_root.isCallable = false) (hid : j.id = some m) (hm : m ≠ 0)
    (ht : effTmpId cls j = some 0) :
    root_job app cls j = .ok (pathJoin (headFor app cls) (Nat.repr m)) ∧
    strEndsWith (pathJoin (headFor app cls) (Nat.repr m)) (Nat.repr m) = true := by
  constructor
  · rw [root_job_noncallable app cls j hnc, ht]
    simp [hid, hm, pyTruthyNat]
  · exact pathJoin_endsWith _ _ (strStartsWith_repr_slash m)

/-- Witness for c8_amended_theorem at a string-root class and id 12. -/
theorem c8_amended_witness :
    root_job "app" c8wcls c8wjob = .ok (pathJoin (headFor "app" c8wcls) (Nat.repr 12)) ∧
    strEndsWith (pathJoin (headFor "app" c8wcls) (Nat.repr 12)) (Nat.repr 12) = true :=
  c8_amended_theorem "app" c8wcls c8wjob 12 rfl rfl (by decide) rfl

/-- C9: whenever a declared data-path or results-path override is a callable
whose `co_code` is that of the built-in `job_data` or `job_results` (in
particular, when it is one of those functions), `_user_path` does not invoke
it through the callable-override branch: it yields `None`, the matching
default subfolder (`data` for the data path, `results` for the results path)
is used, and the computation — a total function of this model — terminates
instead of recursing.  Each override is conditioned independently: the
data-path conclusion needs only `upload_to_data` to be such a callable, and
the results-path conclusion needs only `upload_to_results` to be one. -/
theorem c9_theorem (code : Nat) (f : String → String) (fn app : String)
    (cls : JobClass) (j : Job)
    (hcode : code = job_data_code ∨ code = job_results_code) :
    (cls.upload_to_data = .pycallable code f →
      user_path cls.upload_to_data fn = none ∧
      job_data app cls j fn =
        (root_job app cls j).map (fun head => pathJoin head (pathJoin "data" fn))) ∧
    (cls.upload_to_results = .pycallable code f →
      user_path cls.upload_to_results fn = none ∧
      job_results app cls j fn =
        (root_job app cls j).map (fun head => pathJoin head (pathJoin "results" fn))) := by
  have hup : user_path (.pycallable code f) fn = none := by
    rcases hcode with h | h <;>
      simp [user_path, h, job_data_code, job_results_code]
  constructor
  · intro hd
    refine ⟨by rw [hd]; exact hup, ?_⟩
    unfold job_data
    rw [hd, hup]
    rfl
  · intro hr
    refine ⟨by rw [hr]; exact hup, ?_⟩
    unfold job_results
    rw [hr, hup]
    rfl

/-- Witness for c9_theorem on a class whose `upload_to_data` aliases
`job_data` while `upload_to_results` aliases `job_results`: each override is
neutralized on its own, the data conclusion instantiated at `job_data`'s
code and the results conclusion at `job_results`' code. -/
theorem c9_witness :
    (user_path c9cls.upload_to_data "x.txt" = none ∧
     job_data "app" c9cls c9job "x.txt" =
       (root_job "app" c9cls c9job).map
         (fun head => pathJoin head (pathJoin "data" "x.txt"))) ∧
    (user_path c9cls.upload_to_results "x.txt" = none ∧
     job_results "app" c9cls c9job "x.txt" =
       (root_job "app" c9cls c9job).map
         (fun head => pathJoin head (pathJoin "results" "x.txt"))) :=
  ⟨(c9_theorem job_data_code (fun s => s) "x.txt" "app" c9cls c9job (Or.inl rfl)).1 rfl,
   (c9_theorem job_results_code (fun s => s) "x.txt" "app" c9cls c9job (Or.inr rfl)).2 rfl⟩

theorem promoteField_ok_inv (app : String) (cls : JobClass) (j : Job) (fs : FS)
    (field : String) (j1 : Job) (fs1 : FS)
    (h : promoteField app cls j fs field = .ok (j1, fs1)) :
    j1.id = j.id ∧ j1.tmp_id_inst = j.tmp_id_inst ∧ j1.timestamp = j.timestamp ∧
      j1.closure = j.closure := by
  unfold promoteField at h
  dsimp only at h
  split at h
  · exact absurd h (by simp)
  · split at h
    · exact absurd h (by simp)
    · injection h with h2
      cases h2
      exact ⟨rfl, rfl, rfl, rfl⟩

theorem promoteLoop_inv (app : String) (cls : JobClass) :
    ∀ (l : List String) (j : Job) (fs : FS),
      (promoteLoop app cls l j fs).2.1.id = j.id ∧
      (promoteLoop app cls l j fs).2.1.tmp_id_inst = j.tmp_id_inst ∧
      (promoteLoop app cls l j fs).2.1.timestamp = j.timestamp ∧
      (promoteLoop app cls l j fs).2.1.closure = j.closure := by
  intro l
  induction l with
  | nil => intro j fs; exact ⟨rfl, rfl, rfl, rfl⟩
  | cons f rest ih =>
    intro j fs
    simp only [promoteLoop]
    cases hpf : promoteField app cls j fs f with
    | error e => exact ⟨rfl, rfl, rfl, rfl⟩
    | ok p =>
      obtain ⟨j1, fs1⟩ := p
      obtain ⟨h1, h2, h3, h4⟩ := promoteField_ok_inv app cls j fs f j1 fs1 hpf
      obtain ⟨g1, g2, g3, g4⟩ := ih j1 fs1
      exact ⟨g1.trans h1, g2.trans h2, g3.trans h3, g4.trans h4⟩

theorem move_to_data_inv (app : String) (cls : JobClass) (j : Job) (fs : FS) (c : Bool) :
    (move_to_data app cls j fs c).2.1.id = j.id ∧
    (move_to_data app cls j fs c).2.1.timestamp = j.timestamp ∧
    (move_to_data app cls j fs c).2.1.closure = j.closure := by
  unfold move_to_data
  cases hreq : cls.required_user_files with
  | none => exact ⟨rfl, rfl, rfl⟩
  | some req =>
    cases c with
    | false => exact ⟨rfl, rfl, rfl⟩
    | true =>
      simp only [if_true]
      rcases hpl : promoteLoop app cls req { j with tmp_files := some req } fs with ⟨e, j1, fs1⟩
      obtain ⟨h1, h2, h3, h4⟩ :=
        promoteLoop_inv app cls req { j with tmp_files := some req } fs
      rw [hpl] at h1 h2 h3 h4
      cases e with
      | some e0 => exact ⟨h1, h3, h4⟩
      | none =>
        cases hrj : root_job app cls j1 with
        | error e1 =>
          dsimp only
          rw [hrj]
          exact ⟨h1, h3, h4⟩
        | ok rootPath =>
          dsimp only
          rw [hrj]
          exact ⟨h1, h3, h4⟩

theorem move_to_data_false (app : String) (cls : JobClass) (j : Job) (fs : FS) :
    (move_to_data app cls j fs false).2 = (j, fs) := by
  unfold move_to_data
  cases cls.required_user_files <;> rfl

theorem save_created (ctx : SaveCtx) (cls : JobClass) (j : Job) (fs : FS)
    (hnew : pyTruthyNat j.id = false) :
    save ctx cls j fs =
      match (if cls.hasManager then move_to_data ctx.app_root cls (dbInsert ctx j) fs true
             else (none, dbInsert ctx j, fs)) with
      | (some e, j2, fs2) => (some e, j2, fs2)
      | (none, j2, fs2) =>
        match (if cls.hasManager then
                move_to_data ctx.app_root cls
                  { j2 with closure := some (j2.timestamp + ctx.ttl) } fs2 false
              else (none, { j2 with closure := some (j2.timestamp + ctx.ttl) }, fs2)) with
        | (some e, j4, fs4) => (some e, j4, fs4)
        | (none, j4, fs4) =>
          match job_results ctx.app_root cls j4 "" with
          | .error e => (some e, j4, fs4)
          | .ok _ => (none, j4, fs4) := by
  unfold save
  rw [hnew]
  rfl

/-- C6: a first save that completes (no error) on a job with unset id sets
`closure = timestamp + TTL`, for any TTL; the timestamp is the creation
instant stamped by the insert. -/
theorem c6_theorem (ctx : SaveCtx) (cls : JobClass) (j : Job) (fs : FS)
    (hnew : pyTruthyNat j.id = false)
    (hok : (save ctx cls j fs).1 = none) :
    (save ctx cls j fs).2.1.closure = some (ctx.now + ctx.ttl) ∧
    (save ctx cls j fs).2.1.timestamp = ctx.now := by
  rw [save_created ctx cls j fs hnew] at hok ⊢
  rcases hmv : (if cls.hasManager then move_to_data ctx.app_root cls (dbInsert ctx j) fs true
      else (none, dbInsert ctx j, fs)) with ⟨e1, j2, fs2⟩
  rw [hmv] at hok
  have hts : j2.timestamp = ctx.now := by
    cases hman : cls.hasManager with
    | false =>
      rw [hman, if_neg (by simp)] at hmv
      have h2 : dbInsert ctx j = j2 := congrArg (fun p => p.2.1) hmv
      rw [← h2]
      rfl
    | true =>
      rw [hman, if_pos rfl] at hmv
      have hinv := (move_to_data_inv ctx.app_root cls (dbInsert ctx j) fs true).2.1
      rw [hmv] at hinv
      exact hinv
  cases e1 with
  | some e0 => simp at hok
  | none =>
    dsimp only at hok ⊢
    rcases hmv2 : (if cls.hasManager then
        move_to_data ctx.app_root cls
          { j2 with closure := some (j2.timestamp + ctx.ttl) } fs2 false
      else (none, { j2 with closure := some (j2.timestamp + ctx.ttl) }, fs2))
      with ⟨e2, j4, fs4⟩
    rw [hmv2] at hok
    have hj4 : j4 = { j2 with closure := some (j2.timestamp + ctx.ttl) } := by
      cases hman : cls.hasManager with
      | false =>
        rw [hman, if_neg (by simp)] at hmv2
        exact (congrArg (fun p => p.2.1) hmv2).symm
      | true =>
        rw [hman, if_pos rfl] at hmv2
        have hfe := move_to_data_false ctx.app_root cls
          { j2 with closure := some (j2.timestamp + ctx.ttl) } fs2
        rw [hmv2] at hfe
        exact congrArg Prod.fst hfe
    cases e2 with
    | some e0 => simp at hok
    | none =>
      dsimp only at hok ⊢
      cases hjr : job_results ctx.app_root cls j4 "" with
      | error e3 =>
        rw [hjr] at hok
        simp at hok
      | ok s =>
        constructor
        · show j4.closure = some (ctx.now + ctx.ttl)
          rw [hj4, hts]
        · show j4.timestamp = ctx.now
          rw [hj4]
          exact hts

/-- Witness for c6_theorem: an unmanaged class, TTL 10, creation instant 100. -/
theorem c6_witness :
    (save c6ctx c6cls c6job []).2.1.closure = some (c6ctx.now + c6ctx.ttl) ∧
    (save c6ctx c6cls c6job []).2.1.timestamp = c6ctx.now :=
  c6_theorem c6ctx c6cls c6job [] rfl (by decide)

theorem promoteField_ok (app : String) (cls : JobClass) (j : Job) (fs : FS)
    (n : Nat) (field : String)
    (hid : j.id = some n) (hn : n ≠ 0) (hpend : pyTruthyList j.tmp_files = true)
    (hfile : getFile j field ≠ "") :
    promoteField app cls j fs field =
      .ok ({ j with
              files := setFileList j.files field
                (newNameOf app cls n field (getFile j field)),
              tmp_files := some (((j.tmp_files).getD []).erase field) },
           fsDelete (fsSave fs (newNameOf app cls n field (getFile j field))
             ((lookupFS fs (getFile j field)).getD 0)) (getFile j field)) := by
  unfold promoteField
  dsimp only
  rw [if_neg hfile]
  rw [show uploadAt app cls j (cls.field_upload field) (basename (getFile j field)) =
        .ok (permName app cls n field (basename (getFile j field))) from
      uploadAt_perm app cls j n field (basename (getFile j field)) hid hn hpend]
  rfl

theorem promoteLoop_err (app : String) (cls : JobClass) (n : Nat) (hn : n ≠ 0)
    (bad : String) (post : List String) :
    ∀ (pre : List String) (j : Job) (fs : FS),
      j.id = some n →
      j.tmp_files = some (pre ++ bad :: post) →
      pre.Nodup →
      (∀ f ∈ pre, getFile j f ≠ "") →
      getFile j bad = "" →
      (promoteLoop app cls (pre ++ bad :: post) j fs).1 = some (.fileNotFound bad) ∧
      (promoteLoop app cls (pre ++ bad :: post) j fs).2.1.id = j.id ∧
      (promoteLoop app cls (pre ++ bad :: post) j fs).2.1.closure = j.closure ∧
      (promoteLoop app cls (pre ++ bad :: post) j fs).2.1.tmp_files = some (bad :: post) ∧
      (∀ g, g ∉ pre →
        getFile (promoteLoop app cls (pre ++ bad :: post) j fs).2.1 g = getFile j g) ∧
      (∀ f ∈ pre, getFile (promoteLoop app cls (pre ++ bad :: post) j fs).2.1 f =
        newNameOf app cls n f (getFile j f)) := by
  intro pre
  induction pre with
  | nil =>
    intro j fs hid htmp hnd hfiles hbad
    have hstep : promoteField app cls j fs bad = .error (.fileNotFound bad) := by
      unfold promoteField
      dsimp only
      rw [if_pos hbad]
    simp only [List.nil_append] at htmp ⊢
    simp [promoteLoop, hstep, htmp]
  | cons f pre1 ih =>
    intro j fs hid htmp hnd hfiles hbad
    have hf : getFile j f ≠ "" := hfiles f (by simp)
    have hpend : pyTruthyList j.tmp_files = true := by
      rw [htmp]; simp [pyTruthyList]
    have hbadne : bad ≠ f := by
      intro h
      rw [h] at hbad
      exact hf hbad
    have hstep := promoteField_ok app cls j fs n f hid hn hpend hf
    have herase : ((j.tmp_files).getD []).erase f = pre1 ++ bad :: post := by
      rw [htmp]
      simp only [Option.getD_some, List.cons_append]
      exact List.erase_cons_head f (pre1 ++ bad :: post)
    rw [herase] at hstep
    simp only [List.cons_append, promoteLoop, hstep, List.append_eq]
    have hfnotpre1 : f ∉ pre1 := (List.nodup_cons.mp hnd).1
    have hnd1 : pre1.Nodup := (List.nodup_cons.mp hnd).2
    obtain ⟨g1, g2, g3, g4, g5, g6⟩ := ih
      { j with
          files := setFileList j.files f (newNameOf app cls n f (getFile j f)),
          tmp_files := some (pre1 ++ bad :: post) }
      (fsDelete (fsSave fs (newNameOf app cls n f (getFile j f))
        ((lookupFS fs (getFile j f)).getD 0)) (getFile j f))
      hid rfl hnd1
      (by
        intro g hg
        show lookupFile (setFileList j.files f (newNameOf app cls n f (getFile j f))) g ≠ ""
        rw [lookupFile_set]
        rw [if_neg (fun h : g = f => hfnotpre1 (h ▸ hg))]
        exact hfiles g (List.mem_cons_of_mem f hg))
      (by
        show lookupFile (setFileList j.files f (newNameOf app cls n f (getFile j f))) bad = ""
        rw [lookupFile_set, if_neg hbadne]
        exact hbad)
    refine ⟨g1, g2, g3, g4, ?_, ?_⟩
    · intro g hg
      have hg1 : g ∉ pre1 := fun h => hg (List.mem_cons_of_mem f h)
      have hgf : g ≠ f := fun h => hg (h ▸ List.mem_cons_self f pre1)
      rw [g5 g hg1]
      show lookupFile (setFileList j.files f (newNameOf app cls n f (getFile j f))) g
        = getFile j g
      rw [lookupFile_set, if_neg hgf]
      rfl
    · intro g hg
      rcases List.mem_cons.mp hg with hgf | hg1
      · subst hgf
        rw [g5 g hfnotpre1]
        show lookupFile (setFileList j.files g (newNameOf app cls n g (getFile j g))) g
          = newNameOf app cls n g (getFile j g)
        rw [lookupFile_set, if_pos rfl]
      · have hgf : g ≠ f := fun h => hfnotpre1 (h ▸ hg1)
        have := g6 g hg1
        rw [this]
        congr 1
        show lookupFile (setFileList j.files f (newNameOf app cls n f (getFile j f))) g
          = getFile j g
        rw [lookupFile_set, if_neg hgf]
        rfl

theorem move_to_data_created (app : String) (cls : JobClass) (j : Job) (fs : FS)
    (req : List String) (hreq : cls.required_user_files = some req) :
    move_to_data app cls j fs true =
      match promoteLoop app cls req { j with tmp_files := some req } fs with
      | (some e, j1, fs1) => (some e, j1, fs1)
      | (none, j1, fs1) =>
        match root_job app cls j1 with
        | .error e => (some e, j1, fs1)
        | .ok rootPath => (none, { j1 with tmp_id_inst := some 0 }, rmtree fs1 rootPath) := by
  unfold move_to_data
  rw [hreq]
  rfl

/-- C3: when the job type declares required files and, in declaration order,
some field has an empty file reference while all earlier fields have one,
the first save raises `FileNotFoundError` naming that field and aborts.
Afterwards the in-memory instance has its id assigned but `closure` unset;
every earlier field keeps its promoted (permanent) reference — no rollback —
and the missing field together with all later fields remains in the pending
`_tmp_files` list. -/
theorem c3_theorem (ctx : SaveCtx) (cls : JobClass) (j : Job) (fs : FS)
    (pre post : List String) (bad : String)
    (hman : cls.hasManager = true)
    (hreq : cls.required_user_files = some (pre ++ bad :: post))
    (hnew : j.id = none)
    (hclo : j.closure = none)
    (hn : ctx.new_id ≠ 0)
    (hnd : pre.Nodup)
    (hfiles : ∀ f ∈ pre, getFile j f ≠ "")
    (hbad : getFile j bad = "") :
    (save ctx cls j fs).1 = some (.fileNotFound bad) ∧
    (save ctx cls j fs).2.1.id = some ctx.new_id ∧
    (save ctx cls j fs).2.1.closure = none ∧
    (save ctx cls j fs).2.1.tmp_files = some (bad :: post) ∧
    (∀ f ∈ pre, getFile (save ctx cls j fs).2.1 f =
      newNameOf ctx.app_root cls ctx.new_id f (getFile j f)) := by
  have hnew2 : pyTruthyNat j.id = false := by rw [hnew]; rfl
  rw [save_created ctx cls j fs hnew2, hman, if_pos rfl,
    move_to_data_created ctx.app_root cls (dbInsert ctx j) fs (pre ++ bad :: post) hreq]
  obtain ⟨hE1, hE2, hE3, hE4, hE5, hE6⟩ :=
    promoteLoop_err ctx.app_root cls ctx.new_id hn bad post pre
      { dbInsert ctx j with tmp_files := some (pre ++ bad :: post) } fs
      rfl rfl hnd
      (fun f hf => hfiles f hf)
      hbad
  rcases hpl : promoteLoop ctx.app_root cls (pre ++ bad :: post)
      { dbInsert ctx j with tmp_files := some (pre ++ bad :: post) } fs
    with ⟨e, jE, fsE⟩
  rw [hpl] at hE1 hE2 hE3 hE4 hE5 hE6
  simp only at hE1
  subst hE1
  dsimp only
  refine ⟨rfl, hE2, ?_, hE4, ?_⟩
  · rw [hE3]
    show j.closure = none
    exact hclo
  · intro f hf
    exact hE6 f hf

/-- Witness for c3_theorem: `beta` (the second declared field) has no file;
`alpha` was promoted, `beta` and `gamma` remain pending. -/
theorem c3_witness :
    (save c3ctx c3cls c3job c3fs).1 = some (.fileNotFound "beta") ∧
    (save c3ctx c3cls c3job c3fs).2.1.id = some c3ctx.new_id ∧
    (save c3ctx c3cls c3job c3fs).2.1.closure = none ∧
    (save c3ctx c3cls c3job c3fs).2.1.tmp_files = some ("beta" :: ["gamma"]) ∧
    (∀ f ∈ ["alpha"], getFile (save c3ctx c3cls c3job c3fs).2.1 f =
      newNameOf c3ctx.app_root c3cls c3ctx.new_id f (getFile c3job f)) :=
  c3_theorem c3ctx c3cls c3job c3fs ["alpha"] ["gamma"] "beta"
    rfl rfl rfl rfl (by decide) (by decide) (by decide) rfl

theorem promoteLoop_ok (app : String) (cls : JobClass) (n : Nat) (hn : n ≠ 0) :
    ∀ (fields : List String) (j : Job) (fs : FS),
      j.id = some n →
      j.tmp_files = some fields →
      fields.Nodup →
      (∀ f ∈ fields, getFile j f ≠ "") →
      (∀ f ∈ fields, ∀ g ∈ fields, f ≠ g → getFile j f ≠ getFile j g) →
      (∀ f ∈ fields, ∀ g ∈ fields,
        newNameOf app cls n f (getFile j f) ≠ getFile j g) →
      (∀ f ∈ fields, ∀ g ∈ fields, f ≠ g →
        newNameOf app cls n f (getFile j f) ≠ newNameOf app cls n g (getFile j g)) →
      (promoteLoop app cls fields j fs).1 = none ∧
      (promoteLoop app cls fields j fs).2.1.id = j.id ∧
      (promoteLoop app cls fields j fs).2.1.tmp_id_inst = j.tmp_id_inst ∧
      (promoteLoop app cls fields j fs).2.1.closure = j.closure ∧
      (promoteLoop app cls fields j fs).2.1.timestamp = j.timestamp ∧
      (promoteLoop app cls fields j fs).2.1.tmp_files = some [] ∧
      (∀ g, g ∉ fields → getFile (promoteLoop app cls fields j fs).2.1 g = getFile j g) ∧
      (∀ f ∈ fields, getFile (promoteLoop app cls fields j fs).2.1 f =
        newNameOf app cls n f (getFile j f)) ∧
      (∀ p, (∀ f ∈ fields, p ≠ getFile j f ∧ p ≠ newNameOf app cls n f (getFile j f)) →
        lookupFS (promoteLoop app cls fields j fs).2.2 p = lookupFS fs p) ∧
      (∀ f ∈ fields, lookupFS (promoteLoop app cls fields j fs).2.2
          (newNameOf app cls n f (getFile j f)) =
        some ((lookupFS fs (getFile j f)).getD 0)) ∧
      (∀ f ∈ fields, lookupFS (promoteLoop app cls fields j fs).2.2 (getFile j f) = none) := by
  intro fields
  induction fields with
  | nil =>
    intro j fs hid htmp hnd hfiles hdo hno hnn
    simp [promoteLoop, htmp]
  | cons f rest ih =>
    intro j fs hid htmp hnd hfiles hdo hno hnn
    have hf : getFile j f ≠ "" := hfiles f (by simp)
    have hpend : pyTruthyList j.tmp_files = true := by
      rw [htmp]; simp [pyTruthyList]
    have hstep := promoteField_ok app cls j fs n f hid hn hpend hf
    have herase : ((j.tmp_files).getD []).erase f = rest := by
      rw [htmp]
      simp only [Option.getD_some]
      exact List.erase_cons_head f rest
    rw [herase] at hstep
    simp only [promoteLoop, hstep]
    have hfnotrest : f ∉ rest := (List.nodup_cons.mp hnd).1
    have hnd1 : rest.Nodup := (List.nodup_cons.mp hnd).2
    have hJget : ∀ g : String,
        getFile { j with
          files := setFileList j.files f (newNameOf app cls n f (getFile j f)),
          tmp_files := some rest } g =
        if g = f then newNameOf app cls n f (getFile j f) else getFile j g := by
      intro g
      show lookupFile (setFileList j.files f (newNameOf app cls n f (getFile j f))) g = _
      rw [lookupFile_set]
      rfl
    obtain ⟨g1, g2, g3, g4, g5, g6, g7, g8, g9, g10, g11⟩ := ih
      { j with
          files := setFileList j.files f (newNameOf app cls n f (getFile j f)),
          tmp_files := some rest }
      (fsDelete (fsSave fs (newNameOf app cls n f (getFile j f))
        ((lookupFS fs (getFile j f)).getD 0)) (getFile j f))
      hid rfl hnd1
      (by
        intro g hg
        rw [hJget g, if_neg (fun h : g = f => hfnotrest (h ▸ hg))]
        exact hfiles g (List.mem_cons_of_mem f hg))
      (by
        intro a ha b hb hab
        rw [hJget a, hJget b,
          if_neg (fun h : a = f => hfnotrest (h ▸ ha)),
          if_neg (fun h : b = f => hfnotrest (h ▸ hb))]
        exact hdo a (List.mem_cons_of_mem f ha) b (List.mem_cons_of_mem f hb) hab)
      (by
        intro a ha b hb
        rw [hJget a, hJget b,
          if_neg (fun h : a = f => hfnotrest (h ▸ ha)),
          if_neg (fun h : b = f => hfnotrest (h ▸ hb))]
        exact hno a (List.mem_cons_of_mem f ha) b (List.mem_cons_of_mem f hb))
      (by
        intro a ha b hb hab
        rw [hJget a, hJget b,
          if_neg (fun h : a = f => hfnotrest (h ▸ ha)),
          if_neg (fun h : b = f => hfnotrest (h ▸ hb))]
        exact hnn a (List.mem_cons_of_mem f ha) b (List.mem_cons_of_mem f hb) hab)
    refine ⟨g1, g2, g3, g4, g5, g6, ?_, ?_, ?_, ?_, ?_⟩
    · intro g hg
      have hg1 : g ∉ rest := fun h => hg (List.mem_cons_of_mem f h)
      have hgf : g ≠ f := fun h => hg (h ▸ List.mem_cons_self f rest)
      rw [g7 g hg1, hJget g, if_neg hgf]
    · intro g hg
      rcases List.mem_cons.mp hg with hgf | hg1
      · subst hgf
        rw [g7 g hfnotrest, hJget g, if_pos rfl]
      · have hgf : g ≠ f := fun h => hfnotrest (h ▸ hg1)
        rw [g8 g hg1, hJget g, if_neg hgf]
    · intro p hp
      rw [g9 p (by
        intro a ha
        rw [hJget a, if_neg (fun h : a = f => hfnotrest (h ▸ ha))]
        exact hp a (List.mem_cons_of_mem f ha))]
      obtain ⟨hpo, hpn⟩ := hp f (List.mem_cons_self f rest)
      rw [lookupFS_fsDelete, if_neg hpo, lookupFS_fsSave, if_neg hpn]
    · intro g hg
      rcases List.mem_cons.mp hg with hgf | hg1
      · subst hgf
        rw [g9 (newNameOf app cls n g (getFile j g)) (by
          intro a ha
          rw [hJget a, if_neg (fun h : a = g => hfnotrest (h ▸ ha))]
          constructor
          · exact hno g (List.mem_cons_self g rest) a (List.mem_cons_of_mem g ha)
          · exact hnn g (List.mem_cons_self g rest) a (List.mem_cons_of_mem g ha)
              (fun h => hfnotrest (h ▸ ha)))]
        rw [lookupFS_fsDelete,
          if_neg (hno g (List.mem_cons_self g rest) g (List.mem_cons_self g rest)),
          lookupFS_fsSave, if_pos rfl]
      · have hgf : g ≠ f := fun h => hfnotrest (h ▸ hg1)
        have h10 := g10 g hg1
        rw [hJget g, if_neg hgf] at h10
        rw [h10, lookupFS_fsDelete,
          if_neg (hdo g (List.mem_cons_of_mem f hg1) f (List.mem_cons_self f rest) hgf),
          lookupFS_fsSave,
          if_neg (Ne.symm (hno f (List.mem_cons_self f rest) g (List.mem_cons_of_mem f hg1)))]
    · intro g hg
      rcases List.mem_cons.mp hg with hgf | hg1
      · subst hgf
        rw [g9 (getFile j g) (by
          intro a ha
          rw [hJget a, if_neg (fun h : a = g => hfnotrest (h ▸ ha))]
          constructor
          · exact hdo g (List.mem_cons_self g rest) a (List.mem_cons_of_mem g ha)
              (fun h => hfnotrest (h ▸ ha))
          · exact Ne.symm (hno a (List.mem_cons_of_mem g ha) g (List.mem_cons_self g rest)))]
        rw [lookupFS_fsDelete, if_pos rfl]
      · have hgf : g ≠ f := fun h => hfnotrest (h ▸ hg1)
        have h11 := g11 g hg1
        rw [hJget g, if_neg hgf] at h11
        exact h11

theorem move_to_data_false_some (app : String) (cls : JobClass) (j : Job) (fs : FS)
    (req : List String) (hreq : cls.required_user_files = some req) :
    move_to_data app cls j fs false = (none, j, fs) := by
  unfold move_to_data
  rw [hreq]
  rfl

theorem root_job_done (app : String) (cls : JobClass) (j : Job) (m : Nat)
    (hnc : cls.job_root.isCallable = false) (hid : j.id = some m) (hm : m ≠ 0)
    (ht : effTmpId cls j = some 0) :
    root_job app cls j = .ok (pathJoin (headFor app cls) (Nat.repr m)) := by
  rw [root_job_noncallable app cls j hnc, ht, hid]
  simp [pyTruthyNat, hm]

theorem job_results_done (app : String) (cls : JobClass) (j : Job) (m : Nat)
    (hnc : cls.job_root.isCallable = false) (hid : j.id = some m) (hm : m ≠ 0)
    (ht : effTmpId cls j = some 0) :
    job_results app cls j "" =
      .ok (pathJoin (pathJoin (headFor app cls) (Nat.repr m))
        (pyOr (user_path cls.upload_to_results "") (pathJoin "results" ""))) := by
  unfold job_results
  rw [root_job_done app cls j m hnc hid hm ht]
  rfl

/-- C2: for a managed job class without a callable root override, declaring a
non-empty duplicate-free required-file list, whose fields all hold files (at
pairwise distinct temporary paths, with the computed permanent names pairwise
distinct, distinct from every temporary path, and outside the temporary
subtree — the layout the protocol is designed for), the first save succeeds;
afterwards the temporary root `head/tmp/<t>` subtree holds no storage entry
(it was recursively deleted), every required field's reference equals the
path its configured upload function computes under the permanent id, the
file's bytes sit at that path, the old temporary copy is deleted, and the
temporary identity is exhausted (`_tmp_id = 0`, pending list empty). -/
theorem c2_theorem (ctx : SaveCtx) (cls : JobClass) (j : Job) (fs : FS)
    (req : List String) (t : Nat)
    (hman : cls.hasManager = true)
    (hreq : cls.required_user_files = some req)
    (hreqne : req ≠ [])
    (hnc : cls.job_root.isCallable = false)
    (htcls : cls.tmp_id_class = some t)
    (ht0 : t ≠ 0)
    (hnew : j.id = none)
    (htmpi : j.tmp_id_inst = none)
    (hn : ctx.new_id ≠ 0)
    (hnd : req.Nodup)
    (hfiles : ∀ f ∈ req, getFile j f ≠ "")
    (hdo : ∀ f ∈ req, ∀ g ∈ req, f ≠ g → getFile j f ≠ getFile j g)
    (hno : ∀ f ∈ req, ∀ g ∈ req,
      newNameOf ctx.app_root cls ctx.new_id f (getFile j f) ≠ getFile j g)
    (hnn : ∀ f ∈ req, ∀ g ∈ req, f ≠ g →
      newNameOf ctx.app_root cls ctx.new_id f (getFile j f) ≠
        newNameOf ctx.app_root cls ctx.new_id g (getFile j g))
    (hnt : ∀ f ∈ req, underTree (newNameOf ctx.app_root cls ctx.new_id f (getFile j f))
      (pathJoin (headFor ctx.app_root cls)
        (pathJoin TEMPORARY_JOB_FOLDER (Nat.repr t))) = false) :
    (save ctx cls j fs).1 = none ∧
    (save ctx cls j fs).2.1.tmp_id_inst = some 0 ∧
    (save ctx cls j fs).2.1.tmp_files = some [] ∧
    (∀ f ∈ req, getFile (save ctx cls j fs).2.1 f =
      newNameOf ctx.app_root cls ctx.new_id f (getFile j f)) ∧
    (∀ e ∈ (save ctx cls j fs).2.2, underTree e.1
      (pathJoin (headFor ctx.app_root cls)
        (pathJoin TEMPORARY_JOB_FOLDER (Nat.repr t))) = false) ∧
    (∀ f ∈ req, lookupFS (save ctx cls j fs).2.2
        (newNameOf ctx.app_root cls ctx.new_id f (getFile j f)) =
      some ((lookupFS fs (getFile j f)).getD 0)) ∧
    (∀ f ∈ req, lookupFS (save ctx cls j fs).2.2 (getFile j f) = none) := by
  have hnew2 : pyTruthyNat j.id = false := by rw [hnew]; rfl
  rw [save_created ctx cls j fs hnew2, hman, if_pos rfl]
  rcases hmv : move_to_data ctx.app_root cls (dbInsert ctx j) fs true with ⟨e1, j2, fs2⟩
  rw [move_to_data_created ctx.app_root cls (dbInsert ctx j) fs req hreq] at hmv
  obtain ⟨l1, l2, l3, l4, l5, l6, l7, l8, l9, l10, l11⟩ :=
    promoteLoop_ok ctx.app_root cls ctx.new_id hn req
      { dbInsert ctx j with tmp_files := some req } fs
      rfl rfl hnd
      (fun f hf => hfiles f hf)
      (fun f hf g hg hfg => hdo f hf g hg hfg)
      (fun f hf g hg => hno f hf g hg)
      (fun f hf g hg hfg => hnn f hf g hg hfg)
  rcases hpl : promoteLoop ctx.app_root cls req
      { dbInsert ctx j with tmp_files := some req } fs with ⟨e, j1, fs1⟩
  rw [hpl] at hmv l1 l2 l3 l4 l5 l6 l7 l8 l9 l10 l11
  dsimp only at l1 l2 l3 l4 l5 l6 l7 l8 l9 l10 l11
  subst l1
  dsimp only at hmv
  have hid1 : j1.id = some ctx.new_id := l2
  have htmpi1 : j1.tmp_id_inst = none := by rw [l3]; exact htmpi
  have heff1 : effTmpId cls j1 = some t := by
    unfold effTmpId
    rw [htmpi1, htcls]
  have hrj1 : root_job ctx.app_root cls j1 =
      .ok (pathJoin (headFor ctx.app_root cls)
        (pathJoin TEMPORARY_JOB_FOLDER (Nat.repr t))) := by
    rw [root_job_noncallable ctx.app_root cls j1 hnc, heff1, hid1, l6]
    simp [pyTruthyNat, pyTruthyList, hn, ht0]
  rw [hrj1] at hmv
  dsimp only at hmv
  have he1 : none = e1 := congrArg Prod.fst hmv
  subst he1
  have hj2 : ({ j1 with tmp_id_inst := some 0 } : Job) = j2 :=
    congrArg (fun p => p.2.1) hmv
  have hfs2 : rmtree fs1 (pathJoin (headFor ctx.app_root cls)
      (pathJoin TEMPORARY_JOB_FOLDER (Nat.repr t))) = fs2 :=
    congrArg (fun p => p.2.2) hmv
  have hj2id : j2.id = some ctx.new_id := by rw [← hj2]; exact hid1
  have hj2tmp : j2.tmp_id_inst = some 0 := by rw [← hj2]
  have hj2pend : j2.tmp_files = some [] := by rw [← hj2]; exact l6
  have hj2get : ∀ f : String, getFile j2 f = getFile j1 f := by
    intro f
    rw [← hj2]
    rfl
  dsimp only
  rw [if_pos rfl, move_to_data_false_some ctx.app_root cls
    { j2 with closure := some (j2.timestamp + ctx.ttl) } fs2 req hreq]
  dsimp only
  have heff3 : effTmpId cls { j2 with closure := some (j2.timestamp + ctx.ttl) } = some 0 := by
    unfold effTmpId
    dsimp only
    rw [hj2tmp]
  have hjr3 := job_results_done ctx.app_root cls
    { j2 with closure := some (j2.timestamp + ctx.ttl) } ctx.new_id hnc hj2id hn heff3
  rw [hjr3]
  dsimp only
  refine ⟨rfl, hj2tmp, hj2pend, ?_, ?_, ?_, ?_⟩
  · intro f hf
    show getFile j2 f = _
    rw [hj2get f]
    exact l8 f hf
  · intro e he
    rw [← hfs2] at he
    exact mem_rmtree _ _ e he
  · intro f hf
    rw [← hfs2, lookupFS_rmtree]
    rw [if_neg (by rw [hnt f hf]; exact Bool.false_ne_true)]
    exact l10 f hf
  · intro f hf
    rw [← hfs2, lookupFS_rmtree]
    split
    · rfl
    · exact l11 f hf

/-- Witness for c2_theorem: two required files uploaded under the temporary
root are promoted to `app/qjob/4/data/...`, the tmp subtree is emptied, and
the temporary copies are gone. -/
theorem c2_witness :
    (save c2ctx c2cls c2job c2fs).1 = none ∧
    (save c2ctx c2cls c2job c2fs).2.1.tmp_id_inst = some 0 ∧
    (save c2ctx c2cls c2job c2fs).2.1.tmp_files = some [] ∧
    (∀ f ∈ ["one", "two"], getFile (save c2ctx c2cls c2job c2fs).2.1 f =
      newNameOf c2ctx.app_root c2cls c2ctx.new_id f (getFile c2job f)) ∧
    (∀ e ∈ (save c2ctx c2cls c2job c2fs).2.2, underTree e.1
      (pathJoin (headFor c2ctx.app_root c2cls)
        (pathJoin TEMPORARY_JOB_FOLDER (Nat.repr 2222222))) = false) ∧
    (∀ f ∈ ["one", "two"], lookupFS (save c2ctx c2cls c2job c2fs).2.2
        (newNameOf c2ctx.app_root c2cls c2ctx.new_id f (getFile c2job f)) =
      some ((lookupFS c2fs (getFile c2job f)).getD 0)) ∧
    (∀ f ∈ ["one", "two"],
      lookupFS (save c2ctx c2cls c2job c2fs).2.2 (getFile c2job f) = none) :=
  c2_theorem c2ctx c2cls c2job c2fs ["one", "two"] 2222222
    rfl rfl (by decide) rfl rfl (by decide) rfl rfl (by decide)
    (by decide) (by decide) (by decide) (by decide) (by decide) (by decide)
